import Mathlib

/-!
Verification of the conversation-to-sequence compilation and mixture-loss
aggregation core of `src/finetune.py`.

The external tokenizer and model runtime are abstracted as function-valued
fields (`Tokenizer`, the `forward` argument of `MixtureTrainer.compute_loss`);
every piece of repository logic (the collators, the trainer's loss mixing and
logging, and the context-history parsing of `make_data_module`) is translated
directly from the Python source.
-/

/-- Constant `IGNORE_INDEX` from finetune.py line 139: sentinel label for unsupervised positions. -/
def IGNORE_INDEX : Int := -100

/-- One conversation turn: a role tag (the source uses the strings `"user"` /
`"assistant"`) and text content. -/
structure Turn where
  role : String
  content : String
deriving DecidableEq

/-- Result of a tokenizer call that returns ids and an attention mask
(`apply_chat_template(..., return_dict=True)` or `tokenizer(...)`). -/
structure TokOutput where
  input_ids : List Int
  attention_mask : List Int
deriving DecidableEq

/-- The external tokenizer collaborator, abstracted: a beginning-of-sequence id,
an end-of-sequence token string, an optional pad id together with the fallback
id of the `<|end_of_text|>` special token, chat-template rendering
(arguments: turns, `add_generation_prompt`), and plain encoding
(arguments: text, `max_length` with `truncation=True`, `add_special_tokens=False`). -/
structure Tokenizer where
  bos_token_id : Int
  eos_token : String
  pad_token_id : Option Int
  end_of_text_id : Int
  apply_chat_template : List Turn → Bool → TokOutput
  encode : String → Nat → TokOutput

/-- Well-formedness of the external tokenizer: ids and attention mask returned
together always have the same length, and `encode` honours its `max_length`
truncation bound.  Real HuggingFace tokenizers satisfy all three. -/
structure Tokenizer.WF (tok : Tokenizer) : Prop where
  template_len : ∀ ts g, (tok.apply_chat_template ts g).attention_mask.length
      = (tok.apply_chat_template ts g).input_ids.length
  encode_len : ∀ s m, (tok.encode s m).attention_mask.length = (tok.encode s m).input_ids.length
  encode_le : ∀ s m, (tok.encode s m).input_ids.length ≤ m

/-- A compiled per-example sequence: the three aligned lists built by the
collator loop (finetune.py lines 542-572). -/
structure Compiled where
  input_ids : List Int
  attention_mask : List Int
  labels : List Int
deriving DecidableEq

/-- The contribution of one turn (or of the context block): the slices appended
to `input_ids` / `attention_mask` / `labels` by one loop iteration. -/
structure Seg where
  ids : List Int
  attn : List Int
  labs : List Int
deriving DecidableEq

/-- Appending one turn's contribution to the partially built sequence
(the three `+=` statements of the collator loop). -/
def appendSeg (c : Compiled) (s : Seg) : Compiled :=
  ⟨c.input_ids ++ s.ids, c.attention_mask ++ s.attn, c.labels ++ s.labs⟩

/-- Lines 542-544: every example starts as `[bos_token_id]`, `[1]`, `[IGNORE_INDEX]`. -/
def initCompiled (tok : Tokenizer) : Compiled :=
  ⟨[tok.bos_token_id], [1], [IGNORE_INDEX]⟩

/-- Lines 556-568 (single loop iteration): a user turn is rendered with
`apply_chat_template([turn], add_generation_prompt=True)`, its leading bos
stripped (`[1:]`), labels all `IGNORE_INDEX`; an assistant turn is
`tokenizer(content + eos_token, max_length=target_max_len, truncation=True)`
with labels equal to the token ids; any other role raises
`NotImplementedError` (modelled as `none`). -/
def turnSegment (tok : Tokenizer) (target_max_len : Nat) (t : Turn) : Option Seg :=
  if t.role = "user" then
    let o := tok.apply_chat_template [t] true
    some ⟨o.input_ids.drop 1, o.attention_mask.drop 1,
          List.replicate (o.input_ids.drop 1).length IGNORE_INDEX⟩
  else if t.role = "assistant" then
    let o := tok.encode (t.content ++ tok.eos_token) target_max_len
    some ⟨o.input_ids, o.attention_mask, o.input_ids⟩
  else
    none

/-- Lines 550-553: the context (`example['prompt']`) block, rendered with
`apply_chat_template(prompt, add_generation_prompt=False)`, leading bos
stripped, labels all `IGNORE_INDEX`. -/
def promptSegment (tok : Tokenizer) (p : List Turn) : Seg :=
  let o := tok.apply_chat_template p false
  ⟨o.input_ids.drop 1, o.attention_mask.drop 1,
   List.replicate (o.input_ids.drop 1).length IGNORE_INDEX⟩

/-- Option-valued `mapM` over a list: the per-turn loop aborts the whole
example on the first failing turn (a raised exception). -/
def mapMo (f : α → Option β) : List α → Option (List β)
  | [] => some []
  | a :: as =>
    match f a with
    | none => none
    | some b =>
      match mapMo f as with
      | none => none
      | some bs => some (b :: bs)

/-- Concatenation of the per-turn contributions. -/
def flat : List (List Int) → List Int
  | [] => []
  | l :: ls => l ++ flat ls

/-- The `for conv_dict in example[...]` loop: build each turn's segment and
append them in order to the starting sequence. -/
def buildFromConv (tok : Tokenizer) (target_max_len : Nat) (start : Compiled)
    (conv : List Turn) : Option Compiled :=
  match mapMo (turnSegment tok target_max_len) conv with
  | none => none
  | some segs => some (segs.foldl appendSeg start)

/-- Line 548: `not W_PROMPT_RANDOMIZE or (W_PROMPT_RANDOMIZE and
(random.sample([0,1],1)[0] % 2 == 0))`.  `randomize` is the global
`W_PROMPT_RANDOMIZE` flag and `r` the sampled value. -/
def includeGate (randomize : Bool) (r : Nat) : Bool :=
  !randomize || (randomize && r % 2 == 0)

/-- One input record of `DataCollatorForMultiTurnCausalLM`: an optional
`'prompt'` field (the context) and the `'conv'` turn list. -/
structure Example where
  prompt : Option (List Turn)
  conv : List Turn
deriving DecidableEq

/-- Lines 542-553: the sequence an example starts from — the bos triple,
extended by the context block when `'prompt'` is present and the inclusion
gate passes. -/
def startOf (tok : Tokenizer) (randomize : Bool) (r : Nat) (ex : Example) : Compiled :=
  match ex.prompt with
  | some p =>
    if includeGate randomize r then appendSeg (initCompiled tok) (promptSegment tok p)
    else initCompiled tok
  | none => initCompiled tok

/-- Lines 541-572: the per-example body of `DataCollatorForMultiTurnCausalLM.__call__`. -/
def buildExample (tok : Tokenizer) (target_max_len : Nat) (randomize : Bool) (r : Nat)
    (ex : Example) : Option Compiled :=
  buildFromConv tok target_max_len (startOf tok randomize r ex) ex.conv

/-- Length of the longest list in a batch (what `pad_sequence` pads to). -/
def maxLenOf (ls : List (List Int)) : Nat := ls.foldr (fun l m => max l.length m) 0

/-- Right-pad one list to length `n` with value `v`. -/
def padTo (n : Nat) (v : Int) (l : List Int) : List Int :=
  l ++ List.replicate (n - l.length) v

/-- Model of `torch.nn.utils.rnn.pad_sequence(batch_first=True, padding_value=v)`:
right-pad every list to the batch maximum. -/
def pad_sequence (ls : List (List Int)) (v : Int) : List (List Int) :=
  ls.map (padTo (maxLenOf ls) v)

/-- Line 575: `pad_token_id if _pad_token is not None else
convert_tokens_to_ids("<|end_of_text|>")`. -/
def padTokenId (tok : Tokenizer) : Int := tok.pad_token_id.getD tok.end_of_text_id

/-- A padded rectangular batch (the returned `data_dict`). -/
structure Batch where
  input_ids : List (List Int)
  attention_mask : List (List Int)
  labels : List (List Int)
deriving DecidableEq

/-- Lines 574-587: pad the three per-example lists into the batch record. -/
def padBatch (tok : Tokenizer) (cs : List Compiled) : Batch :=
  ⟨pad_sequence (cs.map Compiled.input_ids) (padTokenId tok),
   pad_sequence (cs.map Compiled.attention_mask) 0,
   pad_sequence (cs.map Compiled.labels) IGNORE_INDEX⟩

/-- The per-example loop of `DataCollatorForMultiTurnCausalLM.__call__`,
threading the index so each example gets its own random draw `rand i`. -/
def collateBuilds (tok : Tokenizer) (target_max_len : Nat) (randomize : Bool)
    (rand : Nat → Nat) : Nat → List Example → Option (List Compiled)
  | _, [] => some []
  | i, ex :: rest =>
    match buildExample tok target_max_len randomize (rand i) ex with
    | none => none
    | some c =>
      match collateBuilds tok target_max_len randomize rand (i + 1) rest with
      | none => none
      | some cs => some (c :: cs)

/-- Model of `DataCollatorForMultiTurnCausalLM.__call__` (lines 535-587): build every
example then pad. -/
def DataCollatorForMultiTurnCausalLM (tok : Tokenizer) (target_max_len : Nat)
    (randomize : Bool) (rand : Nat → Nat) (instances : List Example) : Option Batch :=
  match collateBuilds tok target_max_len randomize rand 0 instances with
  | none => none
  | some cs => some (padBatch tok cs)

/-- One input record of `DataCollatorForMultiTurnMixtureTraining`: the two
stage conversations, plus an optional `'prompt'` field whose presence the
collator asserts against. -/
structure MixExample where
  prompt : Option (List Turn)
  stage1_conv : List Turn
  stage2_conv : List Turn
deriving DecidableEq

/-- Lines 610-641 (per example): `assert 'prompt' not in example` (a failing
assertion is modelled as `none`), then the same turn loop as the single-stage
collator, over the selected conversation column. -/
def mixtureBuildOne (tok : Tokenizer) (target_max_len : Nat) (conv : List Turn)
    (ex : MixExample) : Option Compiled :=
  if ex.prompt.isSome then none
  else buildFromConv tok target_max_len (initCompiled tok) conv

/-- Model of `DataCollatorForMultiTurnMixtureTraining._collator` (lines 604-656):
build every example over one conversation column, then pad. -/
def mixtureCollateColumn (tok : Tokenizer) (target_max_len : Nat)
    (instances : List MixExample) (col : MixExample → List Turn) : Option Batch :=
  match mapMo (fun ex => mixtureBuildOne tok target_max_len (col ex) ex) instances with
  | none => none
  | some cs => some (padBatch tok cs)

/-- A merged dual-stage batch: stage-1 fields renamed with the `stage1_`
marker, stage-2 fields unrenamed (lines 595-602). -/
structure MixBatch where
  stage1_input_ids : List (List Int)
  stage1_attention_mask : List (List Int)
  stage1_labels : List (List Int)
  input_ids : List (List Int)
  attention_mask : List (List Int)
  labels : List (List Int)
deriving DecidableEq

/-- Model of `DataCollatorForMultiTurnMixtureTraining.__call__` (lines 595-602):
run `_collator` over `stage2_conv`, then over `stage1_conv`, rename the
stage-1 keys and merge. -/
def DataCollatorForMultiTurnMixtureTraining (tok : Tokenizer) (target_max_len : Nat)
    (instances : List MixExample) : Option MixBatch :=
  match mixtureCollateColumn tok target_max_len instances MixExample.stage2_conv with
  | none => none
  | some s2 =>
    match mixtureCollateColumn tok target_max_len instances MixExample.stage1_conv with
    | none => none
    | some s1 =>
      some ⟨s1.input_ids, s1.attention_mask, s1.labels,
            s2.input_ids, s2.attention_mask, s2.labels⟩

/-- The field triple handed to one model forward pass. -/
structure StageInputs where
  input_ids : List (List Int)
  attention_mask : List (List Int)
  labels : List (List Int)

/-- Lines 78-82: the unrenamed (stage-2) fields of the mixture batch. -/
def stage2Inputs (inputs : MixBatch) : StageInputs :=
  ⟨inputs.input_ids, inputs.attention_mask, inputs.labels⟩

/-- Lines 85-89: the `stage1_`-renamed fields of the mixture batch. -/
def stage1Inputs (inputs : MixBatch) : StageInputs :=
  ⟨inputs.stage1_input_ids, inputs.stage1_attention_mask, inputs.stage1_labels⟩

/-- The Loss Window of `MixtureTrainer` (lines 59-61): the three tracked
loss series.  Scalar losses are modelled as rationals. -/
structure LossState where
  stage1_loss : List ℚ
  stage2_loss : List ℚ
  total_loss : List ℚ
deriving DecidableEq

/-- The drained window (lines 72-74). -/
def emptyLossState : LossState := ⟨[], [], []⟩

/-- Reachable-window invariant: `compute_loss` appends to the three series in
lockstep and `log` clears all three, so their lengths always agree. -/
def LossState.WF (s : LossState) : Prop :=
  s.stage1_loss.length = s.total_loss.length ∧ s.stage2_loss.length = s.total_loss.length

/-- Model of `MixtureTrainer.compute_loss` (lines 77-109).  `forward` abstracts
`super().compute_loss` (one model forward pass returning a scalar loss and
model outputs); `w2` is `args.stage2_ratio`.  Returns the combined loss, the
outputs handed back when `return_outputs` is set (the stage-2 outputs, line
109), and the Loss Window with the detached losses appended. -/
def MixtureTrainer.compute_loss {α : Type} (forward : StageInputs → ℚ × α) (w2 : ℚ)
    (return_outputs : Bool) (inputs : MixBatch) (s : LossState) :
    (ℚ × Option α) × LossState :=
  let stage2_rets := forward (stage2Inputs inputs)
  let stage1_rets := forward (stage1Inputs inputs)
  let stage1_loss := stage1_rets.1
  let stage2_loss := stage2_rets.1
  let loss := (1 - w2) * stage1_loss + w2 * stage2_loss
  ((loss, if return_outputs then some stage2_rets.2 else none),
   ⟨s.stage1_loss ++ [stage1_loss], s.stage2_loss ++ [stage2_loss], s.total_loss ++ [loss]⟩)

/-- A metrics record: Python dict from key to scalar, ordered. -/
abbrev Metrics := List (String × ℚ)

/-- Python dict assignment `logs[k] = v`: replace in place or append. -/
def setKey : Metrics → String → ℚ → Metrics
  | [], k, v => [(k, v)]
  | (k', v') :: rest, k, v =>
    if k' = k then (k, v) :: rest else (k', v') :: setKey rest k v

/-- Model of `torch.stack(l).mean().item()` for a list of scalar losses. -/
def listMean (l : List ℚ) : ℚ := l.sum / (l.length : ℚ)

/-- Model of `MixtureTrainer.log` (lines 63-74): when `total_loss` is non-empty, inject
the three series means under the fixed keys (a `torch.stack` of an empty
series would raise, modelled as `none`); delegate to the base `log` (the
returned metrics record is what the base receives); then clear the window
unconditionally. -/
def MixtureTrainer.log (s : LossState) (logs : Metrics) : Option (Metrics × LossState) :=
  if s.total_loss.length > 0 then
    if s.stage1_loss.length = 0 ∨ s.stage2_loss.length = 0 then none
    else
      some (setKey (setKey (setKey logs "stage1_loss" (listMean s.stage1_loss))
              "stage2_loss" (listMean s.stage2_loss)) "total_loss" (listMean s.total_loss),
            emptyLossState)
  else some (logs, emptyLossState)

/-- Python `str.isspace` characters relevant to `str.strip()`. -/
def pyIsSpace (c : Char) : Bool :=
  c = ' ' || c = '\t' || c = '\n' || c = '\r' || c = '\x0b' || c = '\x0c'

/-- Python `str.strip()` (line 747): drop whitespace from both ends. -/
def pyStrip (s : String) : String :=
  String.mk (((s.data.dropWhile pyIsSpace).reverse.dropWhile pyIsSpace).reverse)

/-- Line 749 (`enumerate` with `i % 2`): tag the pieces alternately starting
with `"user"` at even indices. -/
def tagTurns : Nat → List String → List Turn
  | _, [] => []
  | i, s :: ss =>
    (if i % 2 == 0 then Turn.mk "user" s else Turn.mk "assistant" s) :: tagTurns (i + 1) ss

/-- Lines 747-749: strip each piece produced by the `re.split` on
`<USER>:`/`<AGENT>:` (the split itself is the external regex engine; its
output is the `pieces` argument), drop empty pieces (`filter(None, ...)`),
and tag the remainder with alternating roles. -/
def contextTurns (pieces : List String) : List Turn :=
  tagTurns 0 ((pieces.map pyStrip).filter (fun s => ¬ s = ""))

/-- Lines 750-751: `if context_history[-1]['role'] == 'user': context_history =
context_history[:-1]`.  Indexing `[-1]` on an empty history raises
(`none`). -/
def dropDanglingUser (h : List Turn) : Option (List Turn) :=
  match h.getLast? with
  | none => none
  | some t => some (if t.role = "user" then h.dropLast else h)

/-- Lines 746-751: the full context-history construction of the
`conv-stage2_w_prompt` branch of `make_data_module`. -/
def parseContextHistory (pieces : List String) : Option (List Turn) :=
  dropDanglingUser (contextTurns pieces)

/-! ### Helper lemmas -/

theorem foldl_appendSeg (segs : List Seg) (c : Compiled) :
    segs.foldl appendSeg c =
      ⟨c.input_ids ++ flat (segs.map Seg.ids),
       c.attention_mask ++ flat (segs.map Seg.attn),
       c.labels ++ flat (segs.map Seg.labs)⟩ := by
  induction segs generalizing c with
  | nil => simp [flat]
  | cons s rest ih => simp [List.foldl_cons, ih, appendSeg, flat, List.append_assoc]

theorem mapMo_eq_some {α β : Type} {f : α → Option β} :
    ∀ {l : List α} {out : List β}, mapMo f l = some out →
      out.length = l.length
      ∧ (∀ p ∈ l.zip out, f p.1 = some p.2)
      ∧ (∀ b ∈ out, ∃ a ∈ l, f a = some b) := by
  intro l
  induction l with
  | nil =>
    intro out h
    simp [mapMo] at h
    subst h
    simp
  | cons a as ih =>
    intro out h
    unfold mapMo at h
    cases hfa : f a with
    | none => rw [hfa] at h; exact absurd h (by simp)
    | some b =>
      rw [hfa] at h
      cases hm : mapMo f as with
      | none => rw [hm] at h; exact absurd h (by simp)
      | some bs =>
        rw [hm] at h
        simp only [Option.some.injEq] at h
        subst h
        obtain ⟨hl, hz, hmem⟩ := ih hm
        refine ⟨by simp [hl], ?_, ?_⟩
        · intro p hp
          rw [List.zip_cons_cons, List.mem_cons] at hp
          rcases hp with rfl | hp
          · exact hfa
          · exact hz p hp
        · intro b' hb'
          rcases List.mem_cons.mp hb' with rfl | hb'
          · exact ⟨a, by simp, hfa⟩
          · obtain ⟨a', ha', hfa'⟩ := hmem b' hb'
            exact ⟨a', by simp [ha'], hfa'⟩

theorem mapMo_eq_none_of_mem {α β : Type} {f : α → Option β} {l : List α} {a : α}
    (ha : a ∈ l) (hfa : f a = none) : mapMo f l = none := by
  induction l with
  | nil => cases ha
  | cons x xs ih =>
    rcases List.mem_cons.mp ha with rfl | hmem
    · simp [mapMo, hfa]
    · unfold mapMo
      rw [ih hmem]
      cases f x <;> rfl

theorem turnSegment_user {tok : Tokenizer} {m : Nat} {t : Turn} {s : Seg}
    (h : turnSegment tok m t = some s) (hu : t.role = "user") :
    s.labs = List.replicate s.ids.length IGNORE_INDEX
    ∧ s.ids = (tok.apply_chat_template [t] true).input_ids.drop 1 := by
  unfold turnSegment at h
  rw [if_pos hu] at h
  simp only [Option.some.injEq] at h
  subst h
  exact ⟨rfl, rfl⟩

theorem turnSegment_assistant {tok : Tokenizer} {m : Nat} {t : Turn} {s : Seg}
    (hwf : tok.WF) (h : turnSegment tok m t = some s) (ha : t.role = "assistant") :
    s.labs = s.ids
    ∧ s.ids = (tok.encode (t.content ++ tok.eos_token) m).input_ids
    ∧ s.ids.length ≤ m := by
  unfold turnSegment at h
  have hu : ¬ t.role = "user" := by rw [ha]; decide
  rw [if_neg hu, if_pos ha] at h
  simp only [Option.some.injEq] at h
  subst h
  exact ⟨rfl, rfl, hwf.encode_le _ _⟩

theorem turnSegment_none {tok : Tokenizer} {m : Nat} {t : Turn}
    (hu : ¬ t.role = "user") (ha : ¬ t.role = "assistant") :
    turnSegment tok m t = none := by
  unfold turnSegment
  rw [if_neg hu, if_neg ha]

theorem turnSegment_wf {tok : Tokenizer} {m : Nat} {t : Turn} {s : Seg}
    (hwf : tok.WF) (h : turnSegment tok m t = some s) :
    s.attn.length = s.ids.length ∧ s.labs.length = s.ids.length := by
  unfold turnSegment at h
  by_cases hu : t.role = "user"
  · rw [if_pos hu] at h
    simp only [Option.some.injEq] at h
    subst h
    constructor
    · simp [List.length_drop, hwf.template_len]
    · simp
  · by_cases ha : t.role = "assistant"
    · rw [if_neg hu, if_pos ha] at h
      simp only [Option.some.injEq] at h
      subst h
      exact ⟨hwf.encode_len _ _, rfl⟩
    · rw [if_neg hu, if_neg ha] at h
      cases h

theorem promptSegment_wf {tok : Tokenizer} (hwf : tok.WF) (p : List Turn) :
    (promptSegment tok p).attn.length = (promptSegment tok p).ids.length
    ∧ (promptSegment tok p).labs.length = (promptSegment tok p).ids.length := by
  unfold promptSegment
  constructor
  · simp [List.length_drop, hwf.template_len]
  · simp

theorem startOf_spec {tok : Tokenizer} (hwf : tok.WF) (randomize : Bool) (r : Nat)
    (ex : Example) :
    ∃ pids pattn plabs,
      startOf tok randomize r ex
        = ⟨tok.bos_token_id :: pids, 1 :: pattn, IGNORE_INDEX :: plabs⟩
      ∧ pattn.length = pids.length ∧ plabs.length = pids.length := by
  cases hp : ex.prompt with
  | none => exact ⟨[], [], [], by simp [startOf, hp, initCompiled], rfl, rfl⟩
  | some p =>
    by_cases hg : includeGate randomize r
    · obtain ⟨h1, h2⟩ := promptSegment_wf hwf p
      exact ⟨(promptSegment tok p).ids, (promptSegment tok p).attn, (promptSegment tok p).labs,
        by simp [startOf, hp, hg, appendSeg, initCompiled], h1, h2⟩
    · exact ⟨[], [], [], by simp [startOf, hp, hg, initCompiled], rfl, rfl⟩

theorem flat_length_proj (segs : List Seg) (f g : Seg → List Int)
    (h : ∀ s ∈ segs, (f s).length = (g s).length) :
    (flat (segs.map f)).length = (flat (segs.map g)).length := by
  induction segs with
  | nil => rfl
  | cons s rest ih =>
    simp only [List.map_cons, flat, List.length_append]
    rw [h s (by simp), ih (fun x hx => h x (by simp [hx]))]

theorem buildExample_spec {tok : Tokenizer} {target_max_len : Nat} {randomize : Bool}
    {r : Nat} {ex : Example} {c : Compiled} (hwf : tok.WF)
    (h : buildExample tok target_max_len randomize r ex = some c) :
    ∃ segs : List Seg,
      mapMo (turnSegment tok target_max_len) ex.conv = some segs
      ∧ segs.length = ex.conv.length
      ∧ c = ⟨(startOf tok randomize r ex).input_ids ++ flat (segs.map Seg.ids),
             (startOf tok randomize r ex).attention_mask ++ flat (segs.map Seg.attn),
             (startOf tok randomize r ex).labels ++ flat (segs.map Seg.labs)⟩
      ∧ (∀ p ∈ ex.conv.zip segs, turnSegment tok target_max_len p.1 = some p.2)
      ∧ (∀ s ∈ segs, s.attn.length = s.ids.length ∧ s.labs.length = s.ids.length) := by
  unfold buildExample buildFromConv at h
  cases hm : mapMo (turnSegment tok target_max_len) ex.conv with
  | none => rw [hm] at h; cases h
  | some segs =>
    rw [hm] at h
    simp only [Option.some.injEq] at h
    obtain ⟨hl, hz, hmem⟩ := mapMo_eq_some hm
    refine ⟨segs, rfl, hl, ?_, hz, ?_⟩
    · rw [← h, foldl_appendSeg]
    · intro s hs
      obtain ⟨t, _, ht⟩ := hmem s hs
      exact turnSegment_wf hwf ht

theorem buildExample_invariants {tok : Tokenizer} {target_max_len : Nat} {randomize : Bool}
    {r : Nat} {ex : Example} {c : Compiled} (hwf : tok.WF)
    (h : buildExample tok target_max_len randomize r ex = some c) :
    c.input_ids.length = c.attention_mask.length
    ∧ c.input_ids.length = c.labels.length
    ∧ ∃ restIds restAttn restLabs,
        c.input_ids = tok.bos_token_id :: restIds
        ∧ c.attention_mask = 1 :: restAttn
        ∧ c.labels = IGNORE_INDEX :: restLabs := by
  obtain ⟨segs, hm, hl, hc, hz, hwfs⟩ := buildExample_spec hwf h
  obtain ⟨pids, pattn, plabs, hstart, h1, h2⟩ := startOf_spec hwf randomize r ex
  have hattn := flat_length_proj segs Seg.attn Seg.ids (fun s hs => (hwfs s hs).1)
  have hlabs := flat_length_proj segs Seg.labs Seg.ids (fun s hs => (hwfs s hs).2)
  rw [hc, hstart]
  refine ⟨?_, ?_, pids ++ flat (segs.map Seg.ids), pattn ++ flat (segs.map Seg.attn),
    plabs ++ flat (segs.map Seg.labs), by simp, by simp, by simp⟩
  · simp [h1, hattn]
  · simp [h2, hlabs]

/-! ### A concrete tokenizer instance for witnesses -/

/-- A small concrete instance of the external tokenizer, used to evaluate the
claims on concrete inputs.  Its chat template emits a leading bos, one marker
token per turn, and one extra marker when `add_generation_prompt` is set, so
the two framings are distinguishable; `encode` maps characters to their
code points, truncated to `max_length`. -/
def testTok : Tokenizer where
  bos_token_id := 1
  eos_token := "!"
  pad_token_id := some 0
  end_of_text_id := 9
  apply_chat_template := fun ts g =>
    ⟨1 :: List.replicate (ts.length + (if g then 2 else 1)) 5,
     1 :: List.replicate (ts.length + (if g then 2 else 1)) 1⟩
  encode := fun s m =>
    ⟨(s.data.map (fun ch => (ch.toNat : Int))).take m,
     ((s.data.map (fun ch => (ch.toNat : Int))).take m).map (fun _ => 1)⟩

theorem testTok_wf : testTok.WF := by
  constructor
  · intro ts g; simp [testTok]
  · intro s m; simp [testTok]
  · intro s m; simp [testTok, List.length_take]

/-- Example `{conv: [user "a", assistant "b"]}`, no context. -/
def ex0 : Example := ⟨none, [⟨"user", "a"⟩, ⟨"assistant", "b"⟩]⟩

/-- What `testTok` compiles `ex0` to: bos, the three user-prompt markers
(ignored), then the supervised tokens of `"b!"`. -/
def c0 : Compiled :=
  ⟨[1, 5, 5, 5, 98, 33], [1, 1, 1, 1, 1, 1], [-100, -100, -100, -100, 98, 33]⟩

/-! ### Claims -/

/-- C1: for every example the sequence builder compiles, every position
contributed by a user turn has label mask `IGNORE_INDEX`, and every position
contributed by an assistant turn has label mask equal to the token id at that
position, the assistant tokens being `content ++ eos_token` encoded with
truncation bound `target_max_len`: the compiled sequence decomposes into a
start block followed by one aligned segment per turn, user segments carrying
all-ignored labels and assistant segments carrying labels equal to their own
ids. -/
theorem claim_C1_turn_label_mask (tok : Tokenizer) (target_max_len : Nat)
    (randomize : Bool) (r : Nat) (ex : Example) (c : Compiled) (hwf : tok.WF)
    (h : buildExample tok target_max_len randomize r ex = some c) :
    ∃ segs : List Seg,
      mapMo (turnSegment tok target_max_len) ex.conv = some segs
      ∧ segs.length = ex.conv.length
      ∧ (∃ start : Compiled,
          c.input_ids = start.input_ids ++ flat (segs.map Seg.ids)
          ∧ c.labels = start.labels ++ flat (segs.map Seg.labs)
          ∧ start.input_ids.length = start.labels.length)
      ∧ ∀ p ∈ ex.conv.zip segs,
          (p.1.role = "user" → p.2.labs = List.replicate p.2.ids.length IGNORE_INDEX)
          ∧ (p.1.role = "assistant" →
              p.2.labs = p.2.ids
              ∧ p.2.ids = (tok.encode (p.1.content ++ tok.eos_token) target_max_len).input_ids
              ∧ p.2.ids.length ≤ target_max_len) := by
  obtain ⟨segs, hm, hl, hc, hz, hwfs⟩ := buildExample_spec hwf h
  refine ⟨segs, hm, hl, ⟨startOf tok randomize r ex, by rw [hc], by rw [hc], ?_⟩, ?_⟩
  · obtain ⟨pids, pattn, plabs, hstart, h1, h2⟩ := startOf_spec hwf randomize r ex
    rw [hstart]
    simp [h2]
  · intro p hp
    have ht := hz p hp
    exact ⟨fun hu => (turnSegment_user ht hu).1, fun ha => turnSegment_assistant hwf ht ha⟩

theorem claim_C1_turn_label_mask_witness :
    ∃ segs : List Seg,
      mapMo (turnSegment testTok 5) ex0.conv = some segs
      ∧ segs.length = ex0.conv.length
      ∧ (∃ start : Compiled,
          c0.input_ids = start.input_ids ++ flat (segs.map Seg.ids)
          ∧ c0.labels = start.labels ++ flat (segs.map Seg.labs)
          ∧ start.input_ids.length = start.labels.length)
      ∧ ∀ p ∈ ex0.conv.zip segs,
          (p.1.role = "user" → p.2.labs = List.replicate p.2.ids.length IGNORE_INDEX)
          ∧ (p.1.role = "assistant" →
              p.2.labs = p.2.ids
              ∧ p.2.ids = (testTok.encode (p.1.content ++ testTok.eos_token) 5).input_ids
              ∧ p.2.ids.length ≤ 5) :=
  claim_C1_turn_label_mask testTok 5 false 0 ex0 c0 testTok_wf (by decide)

/-- C2: every compiled sequence has `input_ids`, `attention_mask` and
`labels` of equal length, starts with the single prepended beginning-of-sequence
id, and position 0 carries `attention_mask = 1` and `label = IGNORE_INDEX`. -/
theorem claim_C2_alignment_and_bos (tok : Tokenizer) (target_max_len : Nat)
    (randomize : Bool) (r : Nat) (ex : Example) (c : Compiled) (hwf : tok.WF)
    (h : buildExample tok target_max_len randomize r ex = some c) :
    c.input_ids.length = c.attention_mask.length
    ∧ c.input_ids.length = c.labels.length
    ∧ ∃ restIds restAttn restLabs,
        c.input_ids = tok.bos_token_id :: restIds
        ∧ c.attention_mask = 1 :: restAttn
        ∧ c.labels = IGNORE_INDEX :: restLabs :=
  buildExample_invariants hwf h

theorem claim_C2_alignment_and_bos_witness :
    c0.input_ids.length = c0.attention_mask.length
    ∧ c0.input_ids.length = c0.labels.length
    ∧ ∃ restIds restAttn restLabs,
        c0.input_ids = testTok.bos_token_id :: restIds
        ∧ c0.attention_mask = 1 :: restAttn
        ∧ c0.labels = IGNORE_INDEX :: restLabs :=
  claim_C2_alignment_and_bos testTok 5 false 0 ex0 c0 testTok_wf (by decide)

/-- Concrete mixture batch for witnesses: empty stage-1 fields, one row of
stage-2 fields. -/
def mb0 : MixBatch := ⟨[], [], [], [[2]], [[2]], [[2]]⟩

/-- Concrete forward function for witnesses: loss is the number of rows. -/
def fwd0 : StageInputs → ℚ × Unit := fun si => ((si.input_ids.length : ℚ), ())

/-- C3: the combined loss returned by `compute_loss` is
`(1 - stage2_ratio) * lossA + stage2_ratio * lossB` with `lossA` the forward
loss on the `stage1_`-renamed fields and `lossB` the forward loss on the
unrenamed fields; at ratio 0 it is `lossA`, at 1 it is `lossB`, at 1/2 it is
their average. -/
theorem claim_C3_combined_loss_linear {α : Type} (forward : StageInputs → ℚ × α)
    (w2 : ℚ) (return_outputs : Bool) (inputs : MixBatch) (s : LossState)
    (h0 : 0 ≤ w2) (h1 : w2 ≤ 1) :
    ((MixtureTrainer.compute_loss forward w2 return_outputs inputs s).1).1
      = (1 - w2) * (forward (stage1Inputs inputs)).1 + w2 * (forward (stage2Inputs inputs)).1
    ∧ (w2 = 0 → ((MixtureTrainer.compute_loss forward w2 return_outputs inputs s).1).1
        = (forward (stage1Inputs inputs)).1)
    ∧ (w2 = 1 → ((MixtureTrainer.compute_loss forward w2 return_outputs inputs s).1).1
        = (forward (stage2Inputs inputs)).1)
    ∧ (w2 = 1/2 → ((MixtureTrainer.compute_loss forward w2 return_outputs inputs s).1).1
        = ((forward (stage1Inputs inputs)).1 + (forward (stage2Inputs inputs)).1) / 2) := by
  refine ⟨rfl, ?_, ?_, ?_⟩ <;> intro hw <;> subst hw <;>
    simp only [MixtureTrainer.compute_loss] <;> ring

theorem claim_C3_combined_loss_linear_witness :
    (0 : ℚ) ≤ 1/2 ∧ (1/2 : ℚ) ≤ 1 ∧
    (((MixtureTrainer.compute_loss fwd0 (1/2) false mb0 emptyLossState).1).1
      = (1 - (1/2 : ℚ)) * (fwd0 (stage1Inputs mb0)).1 + (1/2 : ℚ) * (fwd0 (stage2Inputs mb0)).1
    ∧ ((1/2 : ℚ) = 0 → ((MixtureTrainer.compute_loss fwd0 (1/2) false mb0 emptyLossState).1).1
        = (fwd0 (stage1Inputs mb0)).1)
    ∧ ((1/2 : ℚ) = 1 → ((MixtureTrainer.compute_loss fwd0 (1/2) false mb0 emptyLossState).1).1
        = (fwd0 (stage2Inputs mb0)).1)
    ∧ ((1/2 : ℚ) = 1/2 → ((MixtureTrainer.compute_loss fwd0 (1/2) false mb0 emptyLossState).1).1
        = ((fwd0 (stage1Inputs mb0)).1 + (fwd0 (stage2Inputs mb0)).1) / 2)) :=
  ⟨one_half_pos.le, one_half_lt_one.le,
   claim_C3_combined_loss_linear fwd0 (1/2) false mb0 emptyLossState
     one_half_pos.le one_half_lt_one.le⟩

/-- C10: when `return_outputs` is set, `compute_loss` hands back exactly the
outputs of the stage-2 (unprefixed-fields) forward pass next to the combined
loss; the stage-1 outputs appear nowhere in the result. -/
theorem claim_C10_outputs_are_stage2 {α : Type} (forward : StageInputs → ℚ × α)
    (w2 : ℚ) (inputs : MixBatch) (s : LossState) :
    ((MixtureTrainer.compute_loss forward w2 true inputs s).1).2
      = some (forward (stage2Inputs inputs)).2 := rfl

/-- C4: on a window whose three series were appended in lockstep, `log`
injects the three series means under the fixed keys exactly when the window is
non-empty, delegates the (possibly augmented) record to the base logging
behaviour, and clears the window unconditionally; a second `log` with no
`compute_loss` in between therefore injects nothing and never raises. -/
theorem claim_C4_log_drains_window (s : LossState) (logs : Metrics) (hwf : s.WF) :
    MixtureTrainer.log s logs
      = some ((if s.total_loss.length > 0 then
                 setKey (setKey (setKey logs "stage1_loss" (listMean s.stage1_loss))
                   "stage2_loss" (listMean s.stage2_loss)) "total_loss" (listMean s.total_loss)
               else logs), emptyLossState)
    ∧ (s.total_loss = [] → MixtureTrainer.log s logs = some (logs, emptyLossState))
    ∧ (∀ logs2 : Metrics, MixtureTrainer.log emptyLossState logs2 = some (logs2, emptyLossState)) := by
  obtain ⟨hw1, hw2⟩ := hwf
  refine ⟨?_, ?_, fun logs2 => rfl⟩
  · unfold MixtureTrainer.log
    by_cases ht : s.total_loss.length > 0
    · have hne : ¬ (s.stage1_loss.length = 0 ∨ s.stage2_loss.length = 0) := by omega
      simp [ht, hne]
      refine ⟨fun hc => ?_, fun hc => ?_⟩
      · rw [hc] at hw1; simp at hw1; omega
      · rw [hc] at hw2; simp at hw2; omega
    · simp [ht]
  · intro he
    unfold MixtureTrainer.log
    rw [he]
    simp

/-- Concrete window for the C4 witness: one entry in each series. -/
def ls0 : LossState := ⟨[1], [2], [3]⟩

theorem claim_C4_log_drains_window_witness :
    ls0.WF ∧
    (MixtureTrainer.log ls0 []
      = some ((if ls0.total_loss.length > 0 then
                 setKey (setKey (setKey [] "stage1_loss" (listMean ls0.stage1_loss))
                   "stage2_loss" (listMean ls0.stage2_loss)) "total_loss" (listMean ls0.total_loss)
               else []), emptyLossState)
    ∧ (ls0.total_loss = [] → MixtureTrainer.log ls0 [] = some ([], emptyLossState))
    ∧ (∀ logs2 : Metrics, MixtureTrainer.log emptyLossState logs2 = some (logs2, emptyLossState))) :=
  ⟨⟨rfl, rfl⟩, claim_C4_log_drains_window ls0 [] ⟨rfl, rfl⟩⟩

/-- C6 counterexample to the claim as stated: the builder renders an
included context with `add_generation_prompt=False`, not with the
"expect a reply" framing (`add_generation_prompt=True`): under `testTok`, the
compiled sequence is bos followed by the `False`-framing block `[5, 5]`, which
differs from bos followed by the `True`-framing block `[5, 5, 5]` that the
claim prescribes. -/
theorem claim_C6_counterexample :
    buildExample testTok 5 false 0 ⟨some [⟨"user", "x"⟩], []⟩
      = some ⟨[1, 5, 5], [1, 1, 1], [-100, -100, -100]⟩
    ∧ ¬ ([1, 5, 5] : List Int)
        = [testTok.bos_token_id]
          ++ ((testTok.apply_chat_template [⟨"user", "x"⟩] true).input_ids.drop 1) := by
  decide

/-- C6 amended: if `context` is present then with the randomize flag
unset the context block is always included (with the flag set, it is included
exactly when the sampled bit is even); the included block is the chat-template
rendering with `add_generation_prompt=False` (no "expect a reply" framing),
with its leading bos stripped, and contributes only `IGNORE_INDEX` labels. -/
theorem claim_C6_amended_context_inclusion (tok : Tokenizer) (target_max_len : Nat)
    (r : Nat) (ex : Example) (p : List Turn) (hp : ex.prompt = some p) :
    buildExample tok target_max_len false r ex
      = buildFromConv tok target_max_len
          (appendSeg (initCompiled tok) (promptSegment tok p)) ex.conv
    ∧ (r % 2 = 0 → buildExample tok target_max_len true r ex
        = buildFromConv tok target_max_len
            (appendSeg (initCompiled tok) (promptSegment tok p)) ex.conv)
    ∧ (r % 2 ≠ 0 → buildExample tok target_max_len true r ex
        = buildFromConv tok target_max_len (initCompiled tok) ex.conv)
    ∧ (promptSegment tok p).ids = (tok.apply_chat_template p false).input_ids.drop 1
    ∧ (promptSegment tok p).labs
        = List.replicate ((tok.apply_chat_template p false).input_ids.drop 1).length
            IGNORE_INDEX := by
  refine ⟨?_, ?_, ?_, rfl, rfl⟩
  · unfold buildExample startOf
    rw [hp]
    simp [includeGate]
  · intro hr
    unfold buildExample startOf
    rw [hp]
    simp [includeGate, hr]
  · intro hr
    unfold buildExample startOf
    rw [hp]
    simp [includeGate, hr]

theorem claim_C6_amended_context_inclusion_witness :
    (⟨some [⟨"user", "x"⟩], []⟩ : Example).prompt = some [⟨"user", "x"⟩] ∧
    (buildExample testTok 5 false 0 ⟨some [⟨"user", "x"⟩], []⟩
      = buildFromConv testTok 5
          (appendSeg (initCompiled testTok) (promptSegment testTok [⟨"user", "x"⟩])) []
    ∧ ((0 : Nat) % 2 = 0 → buildExample testTok 5 true 0 ⟨some [⟨"user", "x"⟩], []⟩
        = buildFromConv testTok 5
            (appendSeg (initCompiled testTok) (promptSegment testTok [⟨"user", "x"⟩])) [])
    ∧ ((0 : Nat) % 2 ≠ 0 → buildExample testTok 5 true 0 ⟨some [⟨"user", "x"⟩], []⟩
        = buildFromConv testTok 5 (initCompiled testTok) [])
    ∧ (promptSegment testTok [⟨"user", "x"⟩]).ids
        = (testTok.apply_chat_template [⟨"user", "x"⟩] false).input_ids.drop 1
    ∧ (promptSegment testTok [⟨"user", "x"⟩]).labs
        = List.replicate
            ((testTok.apply_chat_template [⟨"user", "x"⟩] false).input_ids.drop 1).length
            IGNORE_INDEX) :=
  ⟨rfl, claim_C6_amended_context_inclusion testTok 5 0 ⟨some [⟨"user", "x"⟩], []⟩
    [⟨"user", "x"⟩] rfl⟩

theorem buildFromConv_none {tok : Tokenizer} {m : Nat} {start : Compiled} {conv : List Turn}
    {t : Turn} (hmem : t ∈ conv) (hseg : turnSegment tok m t = none) :
    buildFromConv tok m start conv = none := by
  unfold buildFromConv
  rw [mapMo_eq_none_of_mem hmem hseg]

theorem collateBuilds_none {tok : Tokenizer} {m : Nat} {randomize : Bool} {rand : Nat → Nat}
    {ex : Example} (hb : ∀ r, buildExample tok m randomize r ex = none) :
    ∀ (i : Nat) (instances : List Example), ex ∈ instances →
      collateBuilds tok m randomize rand i instances = none := by
  intro i instances
  induction instances generalizing i with
  | nil => intro h; cases h
  | cons x xs ih =>
    intro hmem
    rcases List.mem_cons.mp hmem with rfl | hmem
    · unfold collateBuilds
      rw [hb (rand i)]
    · unfold collateBuilds
      rw [ih (i + 1) hmem]
      cases buildExample tok m randomize (rand i) x <;> rfl

theorem mixtureCollateColumn_none {tok : Tokenizer} {m : Nat} {instances : List MixExample}
    {mex : MixExample} {col : MixExample → List Turn} (hmem : mex ∈ instances)
    (hb : mixtureBuildOne tok m (col mex) mex = none) :
    mixtureCollateColumn tok m instances col = none := by
  unfold mixtureCollateColumn
  rw [mapMo_eq_none_of_mem (f := fun ex => mixtureBuildOne tok m (col ex) ex) hmem hb]

/-- C7: a turn whose role is neither `"user"` nor `"assistant"` makes
sequence compilation fail fatally — the example compiles to nothing and the
enclosing batch construction aborts, in both the single-stage and the mixture
collator. -/
theorem claim_C7_unknown_role_fatal (tok : Tokenizer) (target_max_len : Nat)
    (randomize : Bool) (rand : Nat → Nat) (t : Turn)
    (hu : ¬ t.role = "user") (ha : ¬ t.role = "assistant") :
    (∀ (r : Nat) (ex : Example), t ∈ ex.conv →
        buildExample tok target_max_len randomize r ex = none)
    ∧ (∀ (instances : List Example), ∀ ex ∈ instances, t ∈ ex.conv →
        DataCollatorForMultiTurnCausalLM tok target_max_len randomize rand instances = none)
    ∧ (∀ (instances : List MixExample), ∀ mex ∈ instances,
        t ∈ mex.stage1_conv ∨ t ∈ mex.stage2_conv →
        DataCollatorForMultiTurnMixtureTraining tok target_max_len instances = none) := by
  have hseg : turnSegment tok target_max_len t = none := turnSegment_none hu ha
  have hbuild : ∀ (r : Nat) (ex : Example), t ∈ ex.conv →
      buildExample tok target_max_len randomize r ex = none := by
    intro r ex hmem
    unfold buildExample
    exact buildFromConv_none hmem hseg
  have hone : ∀ (mex : MixExample) (conv : List Turn), t ∈ conv →
      mixtureBuildOne tok target_max_len conv mex = none := by
    intro mex conv hmem
    unfold mixtureBuildOne
    by_cases hp : mex.prompt.isSome
    · rw [if_pos hp]
    · rw [if_neg hp]
      exact buildFromConv_none hmem hseg
  refine ⟨hbuild, ?_, ?_⟩
  · intro instances ex hin hmem
    unfold DataCollatorForMultiTurnCausalLM
    rw [collateBuilds_none (fun r => hbuild r ex hmem) 0 instances hin]
  · intro instances mex hin hcol
    unfold DataCollatorForMultiTurnMixtureTraining
    rcases hcol with h1 | h2
    · cases hs2 : mixtureCollateColumn tok target_max_len instances MixExample.stage2_conv with
      | none => rfl
      | some s2 =>
        rw [mixtureCollateColumn_none hin (hone mex mex.stage1_conv h1)]
    · rw [mixtureCollateColumn_none hin (hone mex mex.stage2_conv h2)]

theorem claim_C7_unknown_role_fatal_witness :
    ¬ (Turn.mk "system" "s").role = "user" ∧ ¬ (Turn.mk "system" "s").role = "assistant" ∧
    ((∀ (r : Nat) (ex : Example), Turn.mk "system" "s" ∈ ex.conv →
        buildExample testTok 5 false r ex = none)
    ∧ (∀ (instances : List Example), ∀ ex ∈ instances, Turn.mk "system" "s" ∈ ex.conv →
        DataCollatorForMultiTurnCausalLM testTok 5 false (fun _ => 0) instances = none)
    ∧ (∀ (instances : List MixExample), ∀ mex ∈ instances,
        Turn.mk "system" "s" ∈ mex.stage1_conv ∨ Turn.mk "system" "s" ∈ mex.stage2_conv →
        DataCollatorForMultiTurnMixtureTraining testTok 5 instances = none)) :=
  ⟨by decide, by decide,
   claim_C7_unknown_role_fatal testTok 5 false (fun _ => 0) (Turn.mk "system" "s")
     (by decide) (by decide)⟩

/-- C8: a mixture example carrying a `'prompt'` (context) field is a
precondition failure — the `assert 'prompt' not in example` fires and the
whole mixture batch construction aborts with no output. -/
theorem claim_C8_mixture_context_precondition (tok : Tokenizer) (target_max_len : Nat)
    (instances : List MixExample) (mex : MixExample)
    (hmem : mex ∈ instances) (hp : mex.prompt.isSome) :
    DataCollatorForMultiTurnMixtureTraining tok target_max_len instances = none := by
  have hb2 : mixtureBuildOne tok target_max_len mex.stage2_conv mex = none := by
    unfold mixtureBuildOne
    rw [if_pos hp]
  unfold DataCollatorForMultiTurnMixtureTraining
  rw [mixtureCollateColumn_none hmem hb2]

theorem claim_C8_mixture_context_precondition_witness :
    (MixExample.mk (some []) [] []) ∈ [MixExample.mk (some []) [] []]
    ∧ (MixExample.mk (some []) [] []).prompt.isSome
    ∧ DataCollatorForMultiTurnMixtureTraining testTok 5 [MixExample.mk (some []) [] []] = none :=
  ⟨by decide, by decide,
   claim_C8_mixture_context_precondition testTok 5 [MixExample.mk (some []) [] []]
     (MixExample.mk (some []) [] []) (by decide) (by decide)⟩

theorem maxLenOf_cons (x : List Int) (xs : List (List Int)) :
    maxLenOf (x :: xs) = max x.length (maxLenOf xs) := rfl

theorem maxLenOf_mem_le {ls : List (List Int)} {l : List Int} (h : l ∈ ls) :
    l.length ≤ maxLenOf ls := by
  induction ls with
  | nil => cases h
  | cons x xs ih =>
    rcases List.mem_cons.mp h with rfl | h
    · rw [maxLenOf_cons]; exact le_max_left _ _
    · rw [maxLenOf_cons]; exact le_trans (ih h) (le_max_right _ _)

theorem maxLenOf_congr {γ : Type} {cs : List γ} (f g : γ → List Int)
    (h : ∀ c ∈ cs, (f c).length = (g c).length) :
    maxLenOf (cs.map f) = maxLenOf (cs.map g) := by
  induction cs with
  | nil => rfl
  | cons x xs ih =>
    simp only [List.map_cons, maxLenOf_cons]
    rw [h x (by simp), ih (fun c hc => h c (by simp [hc]))]

theorem padTo_length {n : Nat} {v : Int} {l : List Int} (h : l.length ≤ n) :
    (padTo n v l).length = n := by
  simp [padTo]
  omega

theorem padTo_getElem_pad {n : Nat} {v : Int} {l : List Int} {j : Nat}
    (h1 : l.length ≤ j) (h2 : j < n) : (padTo n v l)[j]? = some v := by
  unfold padTo
  rw [List.getElem?_append_right h1, List.getElem?_replicate, if_pos (by omega)]

theorem zip_map_self {γ δ : Type} {l : List γ} (g : γ → δ) :
    ∀ p ∈ l.zip (l.map g), p.2 = g p.1 := by
  induction l with
  | nil => intro p hp; cases hp
  | cons x xs ih =>
    intro p hp
    rw [List.map_cons, List.zip_cons_cons, List.mem_cons] at hp
    rcases hp with rfl | hp
    · rfl
    · exact ih p hp

theorem collateBuilds_mem {tok : Tokenizer} {m : Nat} {randomize : Bool} {rand : Nat → Nat} :
    ∀ {i : Nat} {instances : List Example} {cs : List Compiled},
      collateBuilds tok m randomize rand i instances = some cs →
      ∀ c ∈ cs, ∃ j ex, buildExample tok m randomize (rand j) ex = some c := by
  intro i instances
  induction instances generalizing i with
  | nil =>
    intro cs h c hc
    simp [collateBuilds] at h
    subst h
    cases hc
  | cons x xs ih =>
    intro cs h c hc
    unfold collateBuilds at h
    cases hb : buildExample tok m randomize (rand i) x with
    | none => rw [hb] at h; cases h
    | some c1 =>
      rw [hb] at h
      cases hrest : collateBuilds tok m randomize rand (i + 1) xs with
      | none => rw [hrest] at h; cases h
      | some cs1 =>
        rw [hrest] at h
        simp only [Option.some.injEq] at h
        subst h
        rcases List.mem_cons.mp hc with rfl | hc
        · exact ⟨i, x, hb⟩
        · exact ih hrest c hc

/-- C5: for every non-empty accepted batch, the assembler right-pads each
of the three fields to the common batch maximum `N` — `input_ids` with the pad
id (the configured fallback id when no pad id is configured), `attention_mask`
with 0, `labels` with `IGNORE_INDEX` — so all rows of all three fields have
length `N` and every padded position holds the respective filler. -/
theorem claim_C5_padding (tok : Tokenizer) (target_max_len : Nat) (randomize : Bool)
    (rand : Nat → Nat) (instances : List Example) (b : Batch) (hwf : tok.WF)
    (hne : ¬ instances = [])
    (h : DataCollatorForMultiTurnCausalLM tok target_max_len randomize rand instances = some b) :
    (∀ pid, tok.pad_token_id = some pid → padTokenId tok = pid)
    ∧ (tok.pad_token_id = none → padTokenId tok = tok.end_of_text_id)
    ∧ ∃ cs : List Compiled,
        collateBuilds tok target_max_len randomize rand 0 instances = some cs
        ∧ maxLenOf (cs.map Compiled.attention_mask) = maxLenOf (cs.map Compiled.input_ids)
        ∧ maxLenOf (cs.map Compiled.labels) = maxLenOf (cs.map Compiled.input_ids)
        ∧ (∀ row ∈ b.input_ids, row.length = maxLenOf (cs.map Compiled.input_ids))
        ∧ (∀ row ∈ b.attention_mask, row.length = maxLenOf (cs.map Compiled.input_ids))
        ∧ (∀ row ∈ b.labels, row.length = maxLenOf (cs.map Compiled.input_ids))
        ∧ (∀ p ∈ cs.zip b.input_ids, ∀ j, p.1.input_ids.length ≤ j →
            j < maxLenOf (cs.map Compiled.input_ids) → p.2[j]? = some (padTokenId tok))
        ∧ (∀ p ∈ cs.zip b.attention_mask, ∀ j, p.1.attention_mask.length ≤ j →
            j < maxLenOf (cs.map Compiled.input_ids) → p.2[j]? = some 0)
        ∧ (∀ p ∈ cs.zip b.labels, ∀ j, p.1.labels.length ≤ j →
            j < maxLenOf (cs.map Compiled.input_ids) → p.2[j]? = some IGNORE_INDEX) := by
  refine ⟨fun pid hp => by simp [padTokenId, hp], fun hp => by simp [padTokenId, hp], ?_⟩
  unfold DataCollatorForMultiTurnCausalLM at h
  cases hcb : collateBuilds tok target_max_len randomize rand 0 instances with
  | none => rw [hcb] at h; cases h
  | some cs =>
    rw [hcb] at h
    simp only [Option.some.injEq] at h
    subst h
    have hlen : ∀ c ∈ cs, c.input_ids.length = c.attention_mask.length
        ∧ c.input_ids.length = c.labels.length := by
      intro c hc
      obtain ⟨j, ex, hb⟩ := collateBuilds_mem hcb c hc
      obtain ⟨h1, h2, _⟩ := buildExample_invariants hwf hb
      exact ⟨h1, h2⟩
    have hma : maxLenOf (cs.map Compiled.attention_mask) = maxLenOf (cs.map Compiled.input_ids) :=
      maxLenOf_congr Compiled.attention_mask Compiled.input_ids
        (fun c hc => ((hlen c hc).1).symm)
    have hml : maxLenOf (cs.map Compiled.labels) = maxLenOf (cs.map Compiled.input_ids) :=
      maxLenOf_congr Compiled.labels Compiled.input_ids (fun c hc => ((hlen c hc).2).symm)
    refine ⟨cs, rfl, hma, hml, ?_, ?_, ?_, ?_, ?_, ?_⟩
    · intro row hrow
      simp only [padBatch, pad_sequence, List.mem_map] at hrow
      obtain ⟨l, hl, rfl⟩ := hrow
      obtain ⟨c, hc, rfl⟩ := hl
      exact padTo_length (maxLenOf_mem_le (List.mem_map_of_mem Compiled.input_ids hc))
    · intro row hrow
      simp only [padBatch, pad_sequence, List.mem_map] at hrow
      obtain ⟨l, hl, rfl⟩ := hrow
      obtain ⟨c, hc, rfl⟩ := hl
      rw [padTo_length (maxLenOf_mem_le (List.mem_map_of_mem Compiled.attention_mask hc))]
      exact hma
    · intro row hrow
      simp only [padBatch, pad_sequence, List.mem_map] at hrow
      obtain ⟨l, hl, rfl⟩ := hrow
      obtain ⟨c, hc, rfl⟩ := hl
      rw [padTo_length (maxLenOf_mem_le (List.mem_map_of_mem Compiled.labels hc))]
      exact hml
    · intro p hp j hj1 hj2
      have hp2 : p ∈ cs.zip (cs.map (fun c =>
          padTo (maxLenOf (cs.map Compiled.input_ids)) (padTokenId tok) c.input_ids)) := by
        simpa [padBatch, pad_sequence, List.map_map, Function.comp] using hp
      rw [zip_map_self
        (fun c => padTo (maxLenOf (cs.map Compiled.input_ids)) (padTokenId tok) c.input_ids)
        p hp2]
      exact padTo_getElem_pad hj1 hj2
    · intro p hp j hj1 hj2
      have hp2 : p ∈ cs.zip (cs.map (fun c =>
          padTo (maxLenOf (cs.map Compiled.attention_mask)) 0 c.attention_mask)) := by
        simpa [padBatch, pad_sequence, List.map_map, Function.comp] using hp
      rw [zip_map_self
        (fun c => padTo (maxLenOf (cs.map Compiled.attention_mask)) 0 c.attention_mask) p hp2]
      exact padTo_getElem_pad hj1 (by omega)
    · intro p hp j hj1 hj2
      have hp2 : p ∈ cs.zip (cs.map (fun c =>
          padTo (maxLenOf (cs.map Compiled.labels)) IGNORE_INDEX c.labels)) := by
        simpa [padBatch, pad_sequence, List.map_map, Function.comp] using hp
      rw [zip_map_self
        (fun c => padTo (maxLenOf (cs.map Compiled.labels)) IGNORE_INDEX c.labels) p hp2]
      exact padTo_getElem_pad hj1 (by omega)

/-- Second example for the C5 witness: a single assistant turn, shorter than `ex0`. -/
def exA : Example := ⟨none, [⟨"assistant", "c"⟩]⟩

/-- The padded batch `testTok` produces for `[ex0, exA]`. -/
def batch0 : Batch :=
  ⟨[[1, 5, 5, 5, 98, 33], [1, 99, 33, 0, 0, 0]],
   [[1, 1, 1, 1, 1, 1], [1, 1, 1, 0, 0, 0]],
   [[-100, -100, -100, -100, 98, 33], [-100, 99, 33, -100, -100, -100]]⟩

theorem claim_C5_padding_witness :
    (∀ pid, testTok.pad_token_id = some pid → padTokenId testTok = pid)
    ∧ (testTok.pad_token_id = none → padTokenId testTok = testTok.end_of_text_id)
    ∧ ∃ cs : List Compiled,
        collateBuilds testTok 5 false (fun _ => 0) 0 [ex0, exA] = some cs
        ∧ maxLenOf (cs.map Compiled.attention_mask) = maxLenOf (cs.map Compiled.input_ids)
        ∧ maxLenOf (cs.map Compiled.labels) = maxLenOf (cs.map Compiled.input_ids)
        ∧ (∀ row ∈ batch0.input_ids, row.length = maxLenOf (cs.map Compiled.input_ids))
        ∧ (∀ row ∈ batch0.attention_mask, row.length = maxLenOf (cs.map Compiled.input_ids))
        ∧ (∀ row ∈ batch0.labels, row.length = maxLenOf (cs.map Compiled.input_ids))
        ∧ (∀ p ∈ cs.zip batch0.input_ids, ∀ j, p.1.input_ids.length ≤ j →
            j < maxLenOf (cs.map Compiled.input_ids) → p.2[j]? = some (padTokenId testTok))
        ∧ (∀ p ∈ cs.zip batch0.attention_mask, ∀ j, p.1.attention_mask.length ≤ j →
            j < maxLenOf (cs.map Compiled.input_ids) → p.2[j]? = some 0)
        ∧ (∀ p ∈ cs.zip batch0.labels, ∀ j, p.1.labels.length ≤ j →
            j < maxLenOf (cs.map Compiled.input_ids) → p.2[j]? = some IGNORE_INDEX) :=
  claim_C5_padding testTok 5 false (fun _ => 0) [ex0, exA] batch0 testTok_wf
    (by decide) (by decide)

/-! ### Context-history parsing (C9) -/

theorem tagTurns_length (l : List String) : ∀ i, (tagTurns i l).length = l.length := by
  induction l with
  | nil => intro i; rfl
  | cons s ss ih => intro i; simp [tagTurns, ih]

theorem tagTurns_getLast_role (l : List String) :
    ∀ (i : Nat) (t : Turn), (tagTurns i l).getLast? = some t →
      t.role = if (i + l.length - 1) % 2 = 0 then "user" else "assistant" := by
  induction l with
  | nil => intro i t h; cases h
  | cons s ss ih =>
    intro i t h
    cases ss with
    | nil =>
      simp only [tagTurns, List.getLast?_singleton, Option.some.injEq] at h
      subst h
      by_cases hi : i % 2 = 0
      · simp [hi]
      · simp [hi]
    | cons s2 ss2 =>
      have hstep : (tagTurns i (s :: s2 :: ss2)).getLast?
          = (tagTurns (i + 1) (s2 :: ss2)).getLast? := by
        simp only [tagTurns]
        exact List.getLast?_cons_cons
      rw [hstep] at h
      have := ih (i + 1) t h
      rw [this]
      have harith : (i + 1 + (s2 :: ss2).length - 1) = (i + (s :: s2 :: ss2).length - 1) := by
        simp
        omega
      rw [harith]

theorem tagTurns_dropLast (l : List String) :
    ∀ i, (tagTurns i l).dropLast = tagTurns i l.dropLast := by
  induction l with
  | nil => intro i; rfl
  | cons s ss ih =>
    intro i
    cases ss with
    | nil => rfl
    | cons s2 ss2 =>
      have h1 : tagTurns i (s :: s2 :: ss2)
          = (if i % 2 == 0 then Turn.mk "user" s else Turn.mk "assistant" s)
            :: tagTurns (i + 1) (s2 :: ss2) := rfl
      rw [h1]
      rw [List.dropLast_cons_of_ne_nil (by simp [tagTurns])]
      rw [ih (i + 1)]
      rfl

/-- C9: when the parsed context history ends in a user turn, that dangling
user turn is dropped before the context is rendered, and the remaining history
(if non-empty) always ends in an assistant turn. -/
theorem claim_C9_trailing_user_dropped (pieces : List String) (t : Turn)
    (hlast : (contextTurns pieces).getLast? = some t) (hrole : t.role = "user") :
    parseContextHistory pieces = some ((contextTurns pieces).dropLast)
    ∧ ∀ t', ((contextTurns pieces).dropLast).getLast? = some t' → t'.role = "assistant" := by
  constructor
  · unfold parseContextHistory dropDanglingUser
    rw [hlast]
    simp [hrole]
  · intro t' h'
    have hlast1 : (tagTurns 0 ((pieces.map pyStrip).filter (fun s => ¬ s = ""))).getLast?
        = some t := hlast
    have h1 := tagTurns_getLast_role ((pieces.map pyStrip).filter (fun s => ¬ s = "")) 0 t hlast1
    have h'' : (tagTurns 0 ((pieces.map pyStrip).filter (fun s => ¬ s = "")).dropLast).getLast?
        = some t' := by
      rw [← tagTurns_dropLast]
      exact h'
    have h2 := tagTurns_getLast_role
      ((pieces.map pyStrip).filter (fun s => ¬ s = "")).dropLast 0 t' h''
    simp only [Nat.zero_add] at h1 h2
    have hne1 : ¬ tagTurns 0 ((pieces.map pyStrip).filter (fun s => ¬ s = "")).dropLast = [] := by
      intro hc
      rw [hc] at h''
      cases h''
    have hlen1 : 0 < ((pieces.map pyStrip).filter (fun s => ¬ s = "")).dropLast.length := by
      have hl := tagTurns_length ((pieces.map pyStrip).filter (fun s => ¬ s = "")).dropLast 0
      have hpos := List.length_pos.mpr hne1
      omega
    have hlen2 : 2 ≤ ((pieces.map pyStrip).filter (fun s => ¬ s = "")).length := by
      rw [List.length_dropLast] at hlen1
      omega
    have hpar : (((pieces.map pyStrip).filter (fun s => ¬ s = "")).length - 1) % 2 = 0 := by
      by_contra hodd
      rw [if_neg hodd, hrole] at h1
      exact absurd h1 (by decide)
    have hodd2 : ¬ (((pieces.map pyStrip).filter (fun s => ¬ s = "")).dropLast.length - 1) % 2
        = 0 := by
      rw [List.length_dropLast]
      omega
    rw [h2, if_neg hodd2]

theorem claim_C9_trailing_user_dropped_witness :
    (contextTurns ["hi", "yo", "bye"]).getLast? = some (Turn.mk "user" "bye")
    ∧ (Turn.mk "user" "bye").role = "user"
    ∧ (parseContextHistory ["hi", "yo", "bye"]
         = some ((contextTurns ["hi", "yo", "bye"]).dropLast)
       ∧ ∀ t', ((contextTurns ["hi", "yo", "bye"]).dropLast).getLast? = some t' →
           t'.role = "assistant") :=
  ⟨by decide, by decide,
   claim_C9_trailing_user_dropped ["hi", "yo", "bye"] (Turn.mk "user" "bye") (by decide) rfl⟩
